import Mathlib

/-
Verification of the BLMM-to-brain-viewer conversion pipeline
(scripts/convert_blmm_to_brs1.py).

Float32 samples and coordinates appear here as their raw 32-bit patterns
(natural numbers below 2^32): the encoders never transform sample bits, so
bit patterns are the faithful carrier for the container formats.  The
vertex-normal computation, which does real arithmetic on coordinates, is
embedded separately over the real numbers.
-/

namespace BLMMConvert

/-- Little-endian 4-byte serialization of a 32-bit word, as written by
Python struct.pack with format <I or <f (for <f the word is the raw bit
pattern of the float32). -/
def bytesOfU32 (n : Nat) : List Nat :=
  [n % 256, n / 256 % 256, n / 65536 % 256, n / 16777216 % 256]

/-- Reads a little-endian 32-bit word from the first four bytes of a byte
list (0 when fewer than four bytes remain). -/
def u32OfBytes : List Nat → Nat
  | b0 :: b1 :: b2 :: b3 :: _ => b0 + 256 * b1 + 65536 * b2 + 16777216 * b3
  | _ => 0

/-- Reinterprets a byte list as consecutive little-endian 32-bit words,
dropping a trailing fragment shorter than four bytes. -/
def chunks4 : List Nat → List Nat
  | b0 :: b1 :: b2 :: b3 :: rest =>
    (b0 + 256 * b1 + 65536 * b2 + 16777216 * b3) :: chunks4 rest
  | _ => []

/-- Fixed fsaverage5 vertex count (constant N_VERTICES in the script). -/
def N_VERTICES : Nat := 10242

/-- Whether a 32-bit pattern encodes an IEEE-754 single-precision NaN:
exponent all ones and nonzero mantissa, i.e. the low 31 bits exceed
0x7F800000.  This is the predicate np.isnan decides on float32 data. -/
def isNaN32 (b : Nat) : Bool := 2139095040 < b % 2147483648

/-- Order key of a non-NaN float32 bit pattern: the numeric order of the
encoded values agrees with this integer key (sign-magnitude unfolded onto
the integers; both zeros map to 0). -/
def f32Key (b : Nat) : Int :=
  if b < 2147483648 then (b : Int) else -(((b - 2147483648 : Nat) : Nat) : Int)

/-- Minimum of a list of float32 bit patterns in value order, as np.min
computes it on non-NaN data; 0 on the empty list (never consulted there
by the encoder). -/
def minF32 : List Nat → Nat
  | [] => 0
  | x :: xs => xs.foldl (fun a b => if f32Key b < f32Key a then b else a) x

/-- Maximum of a list of float32 bit patterns in value order, as np.max
computes it on non-NaN data; 0 on the empty list. -/
def maxF32 : List Nat → Nat
  | [] => 0
  | x :: xs => xs.foldl (fun a b => if f32Key a < f32Key b then b else a) x

/-- Total count of NaN samples (np.sum over the NaN mask). -/
def statNanCount (samples : List Nat) : Nat :=
  (samples.filter (fun b => isNaN32 b)).length

/-- The valid-data selection of convert_dat_to_brs1: the NaN-masked
subarray when any NaN is present, otherwise the flattened data itself. -/
def statValidData (samples : List Nat) : List Nat :=
  if 0 < statNanCount samples then samples.filter (fun b => !isNaN32 b) else samples

/-- global_min as the script computes it: minimum of the valid data, or
0.0 when no valid sample exists. -/
def statGlobalMin (samples : List Nat) : Nat :=
  if 0 < (statValidData samples).length then minF32 (statValidData samples) else 0

/-- global_max as the script computes it. -/
def statGlobalMax (samples : List Nat) : Nat :=
  if 0 < (statValidData samples).length then maxF32 (statValidData samples) else 0

/-- Volume block v of the flat sample array: row v of the
(n_volumes, n_vertices) reshape. -/
def volumeBlock (samples : List Nat) (v : Nat) : List Nat :=
  (samples.drop (v * N_VERTICES)).take N_VERTICES

/-- The per-volume (min, max) list of convert_dat_to_brs1: for each volume,
NaNs are dropped from that block alone; an all-NaN block yields (0, 0). -/
def statVolumeRanges (samples : List Nat) : List (Nat × Nat) :=
  (List.range (samples.length / N_VERTICES)).map (fun v =>
    let volValid := (volumeBlock samples v).filter (fun b => !isNaN32 b)
    if 0 < volValid.length then (minF32 volValid, maxF32 volValid) else (0, 0))

/-- The statistics encoder convert_dat_to_brs1: rejects sample arrays whose
length is not an exact multiple of N_VERTICES (ValueError, before any
output is built), otherwise produces the uncompressed BRS1 byte buffer:
magic "BRS1", version 1, flags 0, n_vertices, n_volumes, global_min,
global_max, nan_count, the per-volume ranges, then the raw samples
unchanged in volume-major order.  The expected-volume warning in the
script is print-only and does not affect the buffer. -/
def convert_dat_to_brs1 (samples : List Nat) : Except String (List Nat) :=
  let nValues := samples.length
  let nVolumes := nValues / N_VERTICES
  if nValues ≠ N_VERTICES * nVolumes then
    .error "Data size mismatch"
  else
    .ok ([66, 82, 83, 49] ++ bytesOfU32 1 ++ bytesOfU32 0 ++
      bytesOfU32 N_VERTICES ++ bytesOfU32 nVolumes ++
      bytesOfU32 (statGlobalMin samples) ++ bytesOfU32 (statGlobalMax samples) ++
      bytesOfU32 (statNanCount samples) ++
      (statVolumeRanges samples).flatMap (fun r => bytesOfU32 r.1 ++ bytesOfU32 r.2) ++
      samples.flatMap bytesOfU32)

/-- Modelled from the spec: the repository ships no STAT-CONTAINER decoder
under src (the consuming viewer is external), so this reverses the
documented layout: read n_volumes from header offset 16, skip the 32-byte
header and the n_volumes (min, max) float32 pairs, and reinterpret the
remaining bytes as little-endian 32-bit samples. -/
def decodeBRS1samples (buf : List Nat) : List Nat :=
  let nVolumes := u32OfBytes (buf.drop 16)
  chunks4 (buf.drop (32 + 8 * nVolumes))

/-- Serialization of one (x, y, z) triple of 32-bit words. -/
def tripleBytes (t : Nat × Nat × Nat) : List Nat :=
  bytesOfU32 t.1 ++ bytesOfU32 t.2.1 ++ bytesOfU32 t.2.2

/-- The geometry encoder body of convert_pial_to_brg1: magic "BRG1",
version 1, flags 0, n_vertices, n_faces, then vertex float32 triples,
normal float32 triples and face uint32 triples, all little-endian.
Coordinates are carried as raw 32-bit patterns. -/
def convert_pial_to_brg1 (vertices normals faces : List (Nat × Nat × Nat)) : List Nat :=
  [66, 82, 71, 49] ++ bytesOfU32 1 ++ bytesOfU32 0 ++
  bytesOfU32 vertices.length ++ bytesOfU32 faces.length ++
  vertices.flatMap tripleBytes ++ normals.flatMap tripleBytes ++ faces.flatMap tripleBytes

/-- Reads n little-endian 32-bit triples, returning them with the
remaining bytes. -/
def readTriplesLE : Nat → List Nat → List (Nat × Nat × Nat) × List Nat
  | 0, s => ([], s)
  | n + 1, s =>
    let t := (u32OfBytes s, u32OfBytes (s.drop 4), u32OfBytes (s.drop 8))
    let r := readTriplesLE n (s.drop 12)
    (t :: r.1, r.2)

/-- Modelled from the spec: the repository ships no GEOM-CONTAINER decoder
under src, so this reverses the documented layout: read n_vertices at
offset 12 and n_faces at offset 16, then the vertex triples, normal
triples and face triples from offset 20 on. -/
def decodeBRG1 (buf : List Nat) :
    List (Nat × Nat × Nat) × List (Nat × Nat × Nat) × List (Nat × Nat × Nat) :=
  let nV := u32OfBytes (buf.drop 12)
  let nF := u32OfBytes (buf.drop 16)
  let p1 := readTriplesLE nV (buf.drop 20)
  let p2 := readTriplesLE nV p1.2
  let p3 := readTriplesLE nF p2.2
  (p1.1, p2.1, p3.1)

/-- The comment loop of read_freesurfer_surface: consume one byte at a
time until two consecutive newline bytes terminate the comment, returning
the remaining stream; an exhausted stream is the EOF error.  The flag
records whether the previous byte was a newline, which is what the
endswith check of the accumulated comment amounts to. -/
def skipComment : Bool → List Nat → Except String (List Nat)
  | _, [] => .error "Unexpected EOF reading comment"
  | prev, c :: rest =>
    if prev && c == 10 then .ok rest else skipComment (c == 10) rest

/-- Whether the comment loop would find its double-newline terminator
somewhere in the stream. -/
def hasCommentEnd : Bool → List Nat → Bool
  | _, [] => false
  | prev, c :: rest => (prev && c == 10) || hasCommentEnd (c == 10) rest

/-- One big-endian 32-bit read (struct.unpack of a 4-byte read); fewer
than four remaining bytes is the truncation error. -/
def readU32BE : List Nat → Except String (Nat × List Nat)
  | b0 :: b1 :: b2 :: b3 :: rest =>
    .ok (((b0 * 256 + b1) * 256 + b2) * 256 + b3, rest)
  | _ => .error "truncated data"

/-- Reads n big-endian 32-bit triples (vertex coordinate or face index
rows of the FreeSurfer file). -/
def readTriplesBE : Nat → List Nat → Except String (List (Nat × Nat × Nat) × List Nat)
  | 0, s => .ok ([], s)
  | n + 1, s => do
    let p0 ← readU32BE s
    let p1 ← readU32BE p0.2
    let p2 ← readU32BE p1.2
    let pr ← readTriplesBE n p2.2
    .ok ((p0.1, p1.1, p2.1) :: pr.1, pr.2)

/-- The fixed 3-byte FreeSurfer magic prefix. -/
def MAGIC_FS : List Nat := [255, 255, 254]

/-- read_freesurfer_surface: validate the 3-byte magic, skip the
double-newline-terminated comment, read big-endian vertex and face
counts, then that many coordinate and index triples.  Vertex coordinates
are kept as raw float32 bit patterns. -/
def read_freesurfer_surface (s : List Nat) :
    Except String (List (Nat × Nat × Nat) × List (Nat × Nat × Nat)) :=
  if s.take 3 = MAGIC_FS then do
    let r0 ← skipComment false (s.drop 3)
    let pv ← readU32BE r0
    let pf ← readU32BE pv.2
    let vs ← readTriplesBE pv.1 pf.2
    let fs ← readTriplesBE pf.1 vs.2
    .ok (vs.1, fs.1)
  else .error "Invalid FreeSurfer magic"

/-- One entry of the static STAT_META table. -/
structure StatMetaEntry where
  display_name : String
  description : String
  colormap : String
  symmetric : Bool
  suggested_threshold : Option ℚ
  labels : List String
deriving DecidableEq

/-- The static STATISTICS table mapping statistic identifiers to their
expected volume counts. -/
def STATISTICS : List (String × Nat) :=
  [("conT", 5), ("conTlp", 5), ("beta", 23), ("sigma2", 1)]

/-- Contrast labels shared by conT and conTlp. -/
def CONTRAST_LABELS : List String :=
  ["Intercept", "Sex", "CrossSectionalAge", "LongitudinalTime", "NIHScore"]

/-- Beta coefficient labels: the five contrast labels followed by the
generated Covariate_6 .. Covariate_23 placeholders. -/
def BETA_LABELS : List String :=
  CONTRAST_LABELS ++ (List.range 18).map (fun i => "Covariate_" ++ toString (i + 6))

/-- The static per-statistic metadata table STAT_META. -/
def STAT_META : List (String × StatMetaEntry) :=
  [("conT",
    { display_name := "T-Statistics",
      description := "T-statistics for testing whether contrasts differ from zero",
      colormap := "coolwarm", symmetric := true,
      suggested_threshold := some 2, labels := CONTRAST_LABELS }),
   ("conTlp",
    { display_name := "-log10(p-values)",
      description := "Negative log10 of p-values (values > 1.3 correspond to p < 0.05)",
      colormap := "plasma", symmetric := false,
      suggested_threshold := some (13 / 10), labels := CONTRAST_LABELS }),
   ("beta",
    { display_name := "Beta Coefficients",
      description := "Raw fixed effect coefficient estimates",
      colormap := "coolwarm", symmetric := true,
      suggested_threshold := none, labels := BETA_LABELS }),
   ("sigma2",
    { display_name := "Residual Variance",
      description := "Residual variance at each vertex",
      colormap := "viridis", symmetric := false,
      suggested_threshold := none, labels := ["Residual Variance"] })]

/-- The JSON object emitted per statistic. -/
structure MetadataJson where
  name : String
  display_name : String
  description : String
  hemisphere : String
  analysis : String
  colormap : String
  symmetric : Bool
  suggested_threshold : Option ℚ
  nan_handling : String
  volumes : List (Nat × String)
deriving DecidableEq

/-- generate_metadata_json.  The module-level STAT_META table is passed
explicitly as the configuration surface; a missing entry is the KeyError
that the dictionary subscript raises.  No other validation occurs. -/
def generate_metadata_json (table : List (String × StatMetaEntry))
    (hemi analysis stat : String) : Except String MetadataJson :=
  match table.lookup stat with
  | none => .error "KeyError"
  | some meta =>
    .ok { name := hemi ++ "_" ++ analysis ++ "_" ++ stat,
          display_name := meta.display_name ++ " (" ++ analysis.toUpper ++ ")",
          description := meta.description,
          hemisphere := if hemi = "lh" then "left" else "right",
          analysis := analysis,
          colormap := meta.colormap,
          symmetric := meta.symmetric,
          suggested_threshold := meta.suggested_threshold,
          nan_handling := "transparent",
          volumes := meta.labels.enum }

/-! ### Vertex normal estimation over the reals

compute_vertex_normals does float arithmetic on coordinates; its control
flow and algebra are embedded over the real numbers, vectors as triples. -/

/-- A 3-vector of reals. -/
abbrev Vec3 := ℝ × ℝ × ℝ

/-- Componentwise vector sum. -/
def vadd (a b : Vec3) : Vec3 := (a.1 + b.1, a.2.1 + b.2.1, a.2.2 + b.2.2)

/-- Componentwise vector difference. -/
def vsub (a b : Vec3) : Vec3 := (a.1 - b.1, a.2.1 - b.2.1, a.2.2 - b.2.2)

/-- Cross product, as np.cross computes it. -/
def vcross (a b : Vec3) : Vec3 :=
  (a.2.1 * b.2.2 - a.2.2 * b.2.1, a.2.2 * b.1 - a.1 * b.2.2, a.1 * b.2.1 - a.2.1 * b.1)

/-- Scalar multiple. -/
def vscale (t : ℝ) (a : Vec3) : Vec3 := (t * a.1, t * a.2.1, t * a.2.2)

/-- Sum of squared components. -/
def normSq (a : Vec3) : ℝ := a.1 ^ 2 + a.2.1 ^ 2 + a.2.2 ^ 2

/-- Euclidean magnitude, np.linalg.norm. -/
noncomputable def vnorm (a : Vec3) : ℝ := Real.sqrt (normSq a)

/-- The zero vector. -/
def vzero : Vec3 := (0, 0, 0)

/-- The per-face vector of compute_vertex_normals: the cross product of
the two edge vectors, divided by its magnitude only when that magnitude
exceeds 1e-10, otherwise left as is. -/
noncomputable def faceNormal (v0 v1 v2 : Vec3) : Vec3 :=
  let c := vcross (vsub v1 v0) (vsub v2 v0)
  if 1e-10 < vnorm c then vscale (vnorm c)⁻¹ c else c

/-- One iteration of the face loop: look up the three vertex positions
(out-of-range face indices are the IndexError, hence Option) and add the
face normal to the three per-vertex accumulators. -/
noncomputable def accumFace (verts : List Vec3) (acc : List Vec3)
    (f : Nat × Nat × Nat) : Option (List Vec3) :=
  match verts[f.1]?, verts[f.2.1]?, verts[f.2.2]? with
  | some v0, some v1, some v2 =>
    let fn := faceNormal v0 v1 v2
    let a1 := acc.set f.1 (vadd (acc.getD f.1 vzero) fn)
    let a2 := a1.set f.2.1 (vadd (a1.getD f.2.1 vzero) fn)
    let a3 := a2.set f.2.2 (vadd (a2.getD f.2.2 vzero) fn)
    some a3
  | _, _, _ => none

/-- The final normalization step: divide each accumulated vector by its
magnitude, with magnitudes below 1e-10 replaced by 1.0 first. -/
noncomputable def normalizeVec (a : Vec3) : Vec3 :=
  vscale (if vnorm a < 1e-10 then 1 else vnorm a)⁻¹ a

/-- compute_vertex_normals: zero-initialized accumulators, one pass over
the faces, then per-vertex normalization.  Returns none exactly when some
face index falls outside the vertex array. -/
noncomputable def compute_vertex_normals (verts : List Vec3)
    (faces : List (Nat × Nat × Nat)) : Option (List Vec3) :=
  (faces.foldlM (accumFace verts) (List.replicate verts.length vzero)).map
    (fun acc => acc.map normalizeVec)

/-- RangeStatistic, as §3 of the format description words it: a (min, max)
pair computed over a subset of samples excluding NaNs — the pair lies in
the subset and bounds it in float32 value order — and an empty subset
defaults both components to 0.0 (bit pattern 0). -/
def RangeStatisticSpec (valid : List Nat) (p : Nat × Nat) : Prop :=
  (valid = [] → p = (0, 0)) ∧
  (valid ≠ [] → p.1 ∈ valid ∧ p.2 ∈ valid ∧
    ∀ x ∈ valid, f32Key p.1 ≤ f32Key x ∧ f32Key x ≤ f32Key p.2)

/-! ### Byte-level helper lemmas -/

theorem u32OfBytes_bytesOfU32 (n : Nat) (rest : List Nat) (h : n < 4294967296) :
    u32OfBytes (bytesOfU32 n ++ rest) = n := by
  simp only [bytesOfU32, List.cons_append, List.nil_append, u32OfBytes]
  omega

theorem chunks4_bytes (w : Nat) (l : List Nat) (h : w < 4294967296) :
    chunks4 (bytesOfU32 w ++ l) = w :: chunks4 l := by
  have hc : chunks4 (bytesOfU32 w ++ l) =
      (w % 256 + 256 * (w / 256 % 256) + 65536 * (w / 65536 % 256) +
        16777216 * (w / 16777216 % 256)) :: chunks4 l := rfl
  rw [hc]
  congr 1
  omega

theorem chunks4_flatMap (L : List Nat) (h : ∀ x ∈ L, x < 4294967296) :
    chunks4 (L.flatMap bytesOfU32) = L := by
  induction L with
  | nil => rfl
  | cons x xs ih =>
    have hx : x < 4294967296 := h x (by simp)
    have hxs : ∀ y ∈ xs, y < 4294967296 := fun y hy => h y (by simp [hy])
    rw [List.flatMap_cons, chunks4_bytes x _ hx, ih hxs]

theorem length_flatMap_pairBytes (R : List (Nat × Nat)) :
    (R.flatMap (fun r => bytesOfU32 r.1 ++ bytesOfU32 r.2)).length = 8 * R.length := by
  induction R with
  | nil => rfl
  | cons r rs ih =>
    rw [List.flatMap_cons, List.length_append, ih, List.length_cons]
    have h8 : (bytesOfU32 r.1 ++ bytesOfU32 r.2).length = 8 := rfl
    rw [h8]
    omega

theorem drop16_header (w1 w2 w3 : Nat) (tail : List Nat) :
    List.drop 16 (([66, 82, 83, 49] : List Nat) ++ (bytesOfU32 w1 ++ (bytesOfU32 w2 ++
      (bytesOfU32 w3 ++ tail)))) = tail := rfl

theorem drop32_header (w1 w2 w3 w4 w5 w6 w7 : Nat) (tail : List Nat) :
    List.drop 32 (([66, 82, 83, 49] : List Nat) ++ (bytesOfU32 w1 ++ (bytesOfU32 w2 ++
      (bytesOfU32 w3 ++ (bytesOfU32 w4 ++ (bytesOfU32 w5 ++ (bytesOfU32 w6 ++
      (bytesOfU32 w7 ++ tail)))))))) = tail := rfl

theorem decodeBRS1_layout (nVert nv gmin gmax ncount : Nat) (hnv : nv < 4294967296)
    (R : List (Nat × Nat)) (hR : R.length = nv)
    (samples : List Nat) (hbound : ∀ x ∈ samples, x < 4294967296) :
    decodeBRS1samples (([66, 82, 83, 49] : List Nat) ++ bytesOfU32 1 ++ bytesOfU32 0 ++
      bytesOfU32 nVert ++ bytesOfU32 nv ++ bytesOfU32 gmin ++ bytesOfU32 gmax ++
      bytesOfU32 ncount ++ R.flatMap (fun r => bytesOfU32 r.1 ++ bytesOfU32 r.2) ++
      samples.flatMap bytesOfU32) = samples := by
  have hlen8 : (R.flatMap (fun r => bytesOfU32 r.1 ++ bytesOfU32 r.2)).length = 8 * nv := by
    rw [length_flatMap_pairBytes, hR]
  simp only [decodeBRS1samples, List.append_assoc]
  rw [drop16_header, u32OfBytes_bytesOfU32 nv _ hnv,
    ← List.drop_drop, drop32_header, ← hlen8, List.drop_left]
  exact chunks4_flatMap samples hbound

/-! ### C4: size check of the statistics encoder -/

/-- C4: convert_dat_to_brs1 fails (with the size-mismatch error, producing
no output buffer) exactly when the sample count is not an exact multiple
of the fixed vertex count 10242, and on every accepted input the derived
volume count times the vertex count recovers the sample count exactly. -/
theorem brs1_size_check (samples : List Nat) :
    ((∃ e, convert_dat_to_brs1 samples = .error e) ↔ ¬ (N_VERTICES ∣ samples.length)) ∧
    ∀ buf, convert_dat_to_brs1 samples = .ok buf →
      samples.length / N_VERTICES * N_VERTICES = samples.length := by
  have hiff : samples.length ≠ N_VERTICES * (samples.length / N_VERTICES) ↔
      ¬ (N_VERTICES ∣ samples.length) := by
    constructor
    · intro hne hd
      exact hne (Nat.mul_div_cancel' hd).symm
    · intro hnd hne
      exact hnd ⟨samples.length / N_VERTICES, hne⟩
  simp only [convert_dat_to_brs1]
  split
  next h =>
    refine ⟨⟨fun _ => hiff.mp h, fun _ => ⟨"Data size mismatch", rfl⟩⟩, ?_⟩
    intro buf hb
    exact absurd hb (by simp)
  next h =>
    push_neg at h
    refine ⟨⟨fun he => ?_, fun hnd => ?_⟩, fun buf _ => ?_⟩
    · obtain ⟨e, he⟩ := he
      exact absurd he (by simp)
    · exact absurd h (hiff.mpr hnd)
    · rw [Nat.mul_comm]
      exact h.symm

/-- Witness for C4: a single stray sample is rejected, the empty sample
array is accepted. -/
theorem brs1_size_check_witness :
    (∃ e, convert_dat_to_brs1 [0] = .error e) ∧
      (0 : Nat) / N_VERTICES * N_VERTICES = 0 := by
  refine ⟨(brs1_size_check [0]).1.mpr (by decide), ?_⟩
  exact (brs1_size_check []).2 _ rfl

/-! ### C1: statistics round trip -/

/-- C1: for every flat float32 sample array (32-bit patterns) whose length
is an exact multiple of 10242, decoding the uncompressed BRS1 buffer
produced by convert_dat_to_brs1 — skipping the header and the n_volumes
(min, max) pairs — reproduces the flat sample array exactly, bit for bit
(NaN bit patterns included), in the original volume-major order. -/
theorem brs1_stat_roundtrip (samples : List Nat)
    (hbound : ∀ x ∈ samples, x < 4294967296)
    (hlen : samples.length < 4294967296)
    (hdvd : N_VERTICES ∣ samples.length) :
    (convert_dat_to_brs1 samples).map decodeBRS1samples = .ok samples := by
  have hok : samples.length = N_VERTICES * (samples.length / N_VERTICES) :=
    (Nat.mul_div_cancel' hdvd).symm
  have hnv : samples.length / N_VERTICES < 4294967296 :=
    Nat.lt_of_le_of_lt (Nat.div_le_self _ _) hlen
  have hRlen : (statVolumeRanges samples).length = samples.length / N_VERTICES := by
    simp [statVolumeRanges]
  simp only [convert_dat_to_brs1]
  rw [if_neg (fun hne => hne hok)]
  simp only [Except.map]
  rw [decodeBRS1_layout N_VERTICES (samples.length / N_VERTICES) _ _ _ hnv
    (statVolumeRanges samples) hRlen samples hbound]

/-- Witness for C1: a full volume of zero samples round trips. -/
theorem brs1_stat_roundtrip_witness :
    (convert_dat_to_brs1 (List.replicate 10242 0)).map decodeBRS1samples =
      .ok (List.replicate 10242 0) := by
  refine brs1_stat_roundtrip _ ?_ ?_ ?_
  · intro x hx
    rw [List.eq_of_mem_replicate hx]
    norm_num
  · rw [List.length_replicate]
    norm_num
  · refine ⟨1, ?_⟩
    rw [List.length_replicate]
    rfl

/-! ### C2: NaN exclusion in the range statistics -/

theorem foldlMin_mem (ys : List Nat) : ∀ a : Nat,
    ys.foldl (fun a b => if f32Key b < f32Key a then b else a) a ∈ a :: ys := by
  induction ys with
  | nil => intro a; simp
  | cons y ys ih =>
    intro a
    rw [List.foldl_cons]
    rcases List.mem_cons.mp (ih (if f32Key y < f32Key a then y else a)) with h | h
    · rw [h]
      split
      · exact List.mem_cons_of_mem _ (List.mem_cons_self _ _)
      · exact List.mem_cons_self _ _
    · exact List.mem_cons_of_mem _ (List.mem_cons_of_mem _ h)

theorem foldlMin_le (ys : List Nat) : ∀ a : Nat, ∀ c ∈ a :: ys,
    f32Key (ys.foldl (fun a b => if f32Key b < f32Key a then b else a) a) ≤ f32Key c := by
  induction ys with
  | nil =>
    intro a c hc
    rw [List.foldl_nil, List.mem_singleton.mp hc]
  | cons y ys ih =>
    intro a c hc
    rw [List.foldl_cons]
    have hres_le_p : f32Key (ys.foldl (fun a b => if f32Key b < f32Key a then b else a)
        (if f32Key y < f32Key a then y else a)) ≤
        f32Key (if f32Key y < f32Key a then y else a) :=
      ih _ _ (List.mem_cons_self _ _)
    have hp_le_a : f32Key (if f32Key y < f32Key a then y else a) ≤ f32Key a := by
      split
      next hlt => exact le_of_lt hlt
      next hlt => exact le_refl _
    have hp_le_y : f32Key (if f32Key y < f32Key a then y else a) ≤ f32Key y := by
      split
      next hlt => exact le_refl _
      next hlt => exact le_of_not_lt hlt
    rcases List.mem_cons.mp hc with h | h
    · rw [h]
      exact le_trans hres_le_p hp_le_a
    · rcases List.mem_cons.mp h with h2 | h2
      · rw [h2]
        exact le_trans hres_le_p hp_le_y
      · exact ih _ c (List.mem_cons_of_mem _ h2)

theorem foldlMax_mem (ys : List Nat) : ∀ a : Nat,
    ys.foldl (fun a b => if f32Key a < f32Key b then b else a) a ∈ a :: ys := by
  induction ys with
  | nil => intro a; simp
  | cons y ys ih =>
    intro a
    rw [List.foldl_cons]
    rcases List.mem_cons.mp (ih (if f32Key a < f32Key y then y else a)) with h | h
    · rw [h]
      split
      · exact List.mem_cons_of_mem _ (List.mem_cons_self _ _)
      · exact List.mem_cons_self _ _
    · exact List.mem_cons_of_mem _ (List.mem_cons_of_mem _ h)

theorem foldlMax_ge (ys : List Nat) : ∀ a : Nat, ∀ c ∈ a :: ys,
    f32Key c ≤ f32Key (ys.foldl (fun a b => if f32Key a < f32Key b then b else a) a) := by
  induction ys with
  | nil =>
    intro a c hc
    rw [List.foldl_nil, List.mem_singleton.mp hc]
  | cons y ys ih =>
    intro a c hc
    rw [List.foldl_cons]
    have hp_ge : f32Key (if f32Key a < f32Key y then y else a) ≤
        f32Key (ys.foldl (fun a b => if f32Key a < f32Key b then b else a)
          (if f32Key a < f32Key y then y else a)) :=
      ih _ _ (List.mem_cons_self _ _)
    have ha_le_p : f32Key a ≤ f32Key (if f32Key a < f32Key y then y else a) := by
      split
      next hlt => exact le_of_lt hlt
      next hlt => exact le_refl _
    have hy_le_p : f32Key y ≤ f32Key (if f32Key a < f32Key y then y else a) := by
      split
      next hlt => exact le_refl _
      next hlt => exact le_of_not_lt hlt
    rcases List.mem_cons.mp hc with h | h
    · rw [h]
      exact le_trans ha_le_p hp_ge
    · rcases List.mem_cons.mp h with h2 | h2
      · rw [h2]
        exact le_trans hy_le_p hp_ge
      · exact ih _ c (List.mem_cons_of_mem _ h2)

theorem rangeSpec_of_minmax (valid : List Nat) :
    RangeStatisticSpec valid
      (if 0 < valid.length then (minF32 valid, maxF32 valid) else (0, 0)) := by
  constructor
  · intro h
    rw [h]
    simp
  · intro hne
    have hpos : 0 < valid.length := List.length_pos.mpr hne
    rw [if_pos hpos]
    cases valid with
    | nil => exact absurd rfl hne
    | cons x xs =>
      exact ⟨foldlMin_mem xs x, foldlMax_mem xs x,
        fun c hc => ⟨foldlMin_le xs x c hc, foldlMax_ge xs x c hc⟩⟩

theorem statValidData_eq (samples : List Nat) :
    statValidData samples = samples.filter (fun b => !isNaN32 b) := by
  unfold statValidData statNanCount
  split
  next => rfl
  next h =>
    push_neg at h
    have hnil : samples.filter (fun b => isNaN32 b) = [] :=
      List.eq_nil_of_length_eq_zero (Nat.le_zero.mp h)
    have hall : ∀ x ∈ samples, ¬ (isNaN32 x = true) := List.filter_eq_nil_iff.mp hnil
    refine (List.filter_eq_self.mpr ?_).symm
    intro a ha
    simp [hall a ha]

/-- C2: the nan_count field counts exactly the NaN samples; the
global_min/global_max pair written to the header is a RangeStatistic of
the non-NaN samples of the whole array (membership and bounds in float32
value order, (0, 0) when every sample is NaN); and each per-volume pair,
in volume order, is a RangeStatistic of the non-NaN samples of that
volume block alone (so an all-NaN block yields (0, 0)). -/
theorem brs1_stats_nan_exclusion (samples : List Nat) :
    statNanCount samples = samples.countP (fun b => isNaN32 b) ∧
    RangeStatisticSpec (samples.filter (fun b => !isNaN32 b))
      (statGlobalMin samples, statGlobalMax samples) ∧
    ∀ v, v < samples.length / N_VERTICES →
      ∃ p, (statVolumeRanges samples)[v]? = some p ∧
        RangeStatisticSpec ((volumeBlock samples v).filter (fun b => !isNaN32 b)) p := by
  refine ⟨(List.countP_eq_length_filter _ _).symm, ?_, ?_⟩
  · have h := rangeSpec_of_minmax (samples.filter (fun b => !isNaN32 b))
    unfold statGlobalMin statGlobalMax
    rw [statValidData_eq]
    by_cases hpos : 0 < (samples.filter (fun b => !isNaN32 b)).length
    · rw [if_pos hpos] at h ⊢
      rw [if_pos hpos]
      exact h
    · rw [if_neg hpos] at h ⊢
      rw [if_neg hpos]
      exact h
  · intro v hv
    refine ⟨_, ?_, rangeSpec_of_minmax _⟩
    unfold statVolumeRanges
    rw [List.getElem?_map, List.getElem?_range hv]
    rfl

/-- Witness for C2: on a one-NaN, one-valid pair the count is 1 and the
valid sample is both bounds; on a NaN-free full volume the per-volume
pair exists and is a RangeStatistic of that block. -/
theorem brs1_stats_nan_exclusion_witness :
    statNanCount [5, 2139095041] = 1 ∧
    statGlobalMin [5, 2139095041] ∈ [(5 : Nat)] ∧
    (∃ p, (statVolumeRanges (List.replicate 10242 7))[0]? = some p ∧
      RangeStatisticSpec ((volumeBlock (List.replicate 10242 7) 0).filter
        (fun b => !isNaN32 b)) p) := by
  refine ⟨?_, ?_, ?_⟩
  · rw [(brs1_stats_nan_exclusion [5, 2139095041]).1]
    decide
  · have h := ((brs1_stats_nan_exclusion [5, 2139095041]).2.1).2 (by decide)
    exact h.1
  · refine (brs1_stats_nan_exclusion (List.replicate 10242 7)).2.2 0 ?_
    rw [List.length_replicate]
    norm_num [N_VERTICES]

/-! ### C3: geometry round trip -/

theorem drop4_bytes (w : Nat) (l : List Nat) : (bytesOfU32 w ++ l).drop 4 = l := rfl

theorem drop8_bytes (w1 w2 : Nat) (l : List Nat) :
    (bytesOfU32 w1 ++ (bytesOfU32 w2 ++ l)).drop 8 = l := rfl

theorem drop12_bytes (w1 w2 w3 : Nat) (l : List Nat) :
    (bytesOfU32 w1 ++ (bytesOfU32 w2 ++ (bytesOfU32 w3 ++ l))).drop 12 = l := rfl

theorem readTriplesLE_flatMap (L : List (Nat × Nat × Nat)) (rest : List Nat)
    (h : ∀ t ∈ L, t.1 < 4294967296 ∧ t.2.1 < 4294967296 ∧ t.2.2 < 4294967296) :
    readTriplesLE L.length (L.flatMap tripleBytes ++ rest) = (L, rest) := by
  induction L with
  | nil => rfl
  | cons t ts ih =>
    have ht := h t (by simp)
    have hts : ∀ u ∈ ts, u.1 < 4294967296 ∧ u.2.1 < 4294967296 ∧ u.2.2 < 4294967296 :=
      fun u hu => h u (by simp [hu])
    simp only [List.flatMap_cons, tripleBytes, List.append_assoc, List.length_cons,
      readTriplesLE]
    rw [u32OfBytes_bytesOfU32 _ _ ht.1, drop4_bytes, u32OfBytes_bytesOfU32 _ _ ht.2.1,
      drop8_bytes, u32OfBytes_bytesOfU32 _ _ ht.2.2, drop12_bytes, ih hts]

theorem drop12_geom (w1 w2 : Nat) (tail : List Nat) :
    List.drop 12 (([66, 82, 71, 49] : List Nat) ++ (bytesOfU32 w1 ++
      (bytesOfU32 w2 ++ tail))) = tail := rfl

theorem drop16_geom (w1 w2 w3 : Nat) (tail : List Nat) :
    List.drop 16 (([66, 82, 71, 49] : List Nat) ++ (bytesOfU32 w1 ++
      (bytesOfU32 w2 ++ (bytesOfU32 w3 ++ tail)))) = tail := rfl

theorem drop20_geom (w1 w2 w3 w4 : Nat) (tail : List Nat) :
    List.drop 20 (([66, 82, 71, 49] : List Nat) ++ (bytesOfU32 w1 ++
      (bytesOfU32 w2 ++ (bytesOfU32 w3 ++ (bytesOfU32 w4 ++ tail))))) = tail := rfl

/-- C3: decoding the uncompressed GEOM-CONTAINER buffer produced by the
geometry encoder (little-endian magic, version 1, flags 0, n_vertices,
n_faces, vertex triples, normal triples, face triples) reproduces the
original vertex positions, normals and face indices exactly, with the
float32 coordinates bit-exact. -/
theorem brg1_geom_roundtrip (V N F : List (Nat × Nat × Nat))
    (hN : N.length = V.length)
    (hV : ∀ t ∈ V, t.1 < 4294967296 ∧ t.2.1 < 4294967296 ∧ t.2.2 < 4294967296)
    (hNb : ∀ t ∈ N, t.1 < 4294967296 ∧ t.2.1 < 4294967296 ∧ t.2.2 < 4294967296)
    (hF : ∀ t ∈ F, t.1 < 4294967296 ∧ t.2.1 < 4294967296 ∧ t.2.2 < 4294967296)
    (hVl : V.length < 4294967296) (hFl : F.length < 4294967296) :
    decodeBRG1 (convert_pial_to_brg1 V N F) = (V, N, F) := by
  have h2 : readTriplesLE V.length
      (N.flatMap tripleBytes ++ F.flatMap tripleBytes) = (N, F.flatMap tripleBytes) := by
    rw [← hN]
    exact readTriplesLE_flatMap N _ hNb
  have h3 : readTriplesLE F.length (F.flatMap tripleBytes) = (F, []) := by
    have := readTriplesLE_flatMap F [] hF
    rwa [List.append_nil] at this
  simp only [decodeBRG1, convert_pial_to_brg1, List.append_assoc]
  rw [drop12_geom, drop16_geom, drop20_geom, u32OfBytes_bytesOfU32 _ _ hVl]
  rw [u32OfBytes_bytesOfU32 _ _ hFl]
  rw [readTriplesLE_flatMap V _ hV]
  simp only
  rw [h2]
  simp only
  rw [h3]

/-- Witness for C3: a concrete two-vertex, one-face surface with unit
normals round trips. -/
theorem brg1_geom_roundtrip_witness :
    decodeBRG1 (convert_pial_to_brg1
      [(0, 0, 0), (1065353216, 0, 0)] [(0, 0, 1065353216), (0, 0, 1065353216)]
      [(0, 1, 1)]) =
      ([(0, 0, 0), (1065353216, 0, 0)], [(0, 0, 1065353216), (0, 0, 1065353216)],
        [(0, 1, 1)]) := by
  refine brg1_geom_roundtrip _ _ _ rfl ?_ ?_ ?_ ?_ ?_ <;> decide

/-! ### C7: surface reader error handling -/

theorem hasCommentEnd_false_skipComment (s : List Nat) : ∀ prev : Bool,
    hasCommentEnd prev s = false →
    skipComment prev s = .error "Unexpected EOF reading comment" := by
  induction s with
  | nil => intro prev _; rfl
  | cons c rest ih =>
    intro prev h
    rw [hasCommentEnd] at h
    cases ho : (prev && c == 10) with
    | true =>
      rw [ho] at h
      simp at h
    | false =>
      rw [ho] at h
      simp only [Bool.false_or] at h
      simp only [skipComment, ho]
      exact ih _ h

/-- C7: the surface reader fails with the invalid-magic error whenever the
first three bytes differ from the fixed magic, fails with the truncated-
comment error whenever the magic matches but no two consecutive newline
bytes ever terminate the comment region, and the comment content is
discarded: any two comment regions that leave the same remaining stream
give identical results, so the content never reaches the returned
Surface. -/
theorem fs_reader_header_errors (s : List Nat) :
    (s.take 3 ≠ MAGIC_FS → read_freesurfer_surface s = .error "Invalid FreeSurfer magic") ∧
    (s.take 3 = MAGIC_FS → hasCommentEnd false (s.drop 3) = false →
      read_freesurfer_surface s = .error "Unexpected EOF reading comment") ∧
    (∀ b₁ b₂ r, skipComment false b₁ = .ok r → skipComment false b₂ = .ok r →
      read_freesurfer_surface (MAGIC_FS ++ b₁) = read_freesurfer_surface (MAGIC_FS ++ b₂)) := by
  refine ⟨?_, ?_, ?_⟩
  · intro h
    unfold read_freesurfer_surface
    rw [if_neg h]
  · intro h1 h2
    unfold read_freesurfer_surface
    rw [if_pos h1, hasCommentEnd_false_skipComment _ _ h2]
    rfl
  · intro b₁ b₂ r h1 h2
    unfold read_freesurfer_surface
    rw [if_pos (show (MAGIC_FS ++ b₁).take 3 = MAGIC_FS from rfl),
      if_pos (show (MAGIC_FS ++ b₂).take 3 = MAGIC_FS from rfl),
      show (MAGIC_FS ++ b₁).drop 3 = b₁ from rfl,
      show (MAGIC_FS ++ b₂).drop 3 = b₂ from rfl, h1, h2]

/-- Witness for C7: a wrong-magic stream, a magic-only stream with an
unterminated comment, and two different comments with the same (empty)
remainder. -/
theorem fs_reader_header_errors_witness :
    read_freesurfer_surface [0] = .error "Invalid FreeSurfer magic" ∧
    read_freesurfer_surface [255, 255, 254, 72] = .error "Unexpected EOF reading comment" ∧
    read_freesurfer_surface (MAGIC_FS ++ [10, 10]) =
      read_freesurfer_surface (MAGIC_FS ++ [65, 10, 10]) := by
  refine ⟨(fs_reader_header_errors [0]).1 (by decide),
    (fs_reader_header_errors [255, 255, 254, 72]).2.1 (by decide) (by decide),
    (fs_reader_header_errors (MAGIC_FS ++ [10, 10])).2.2 [10, 10] [65, 10, 10] []
      rfl rfl⟩

/-! ### C8, C10: metadata emitter -/

/-- C8 (amended): generate_metadata_json fails — with the propagated
KeyError, never a silent default — exactly when the requested statistic
identifier has no entry in the metadata table; no label-length validation
exists in the emitter, but in the shipped static tables every label list
length does equal the expected volume count. -/
theorem metadata_missing_entry (table : List (String × StatMetaEntry))
    (hemi analysis stat : String) :
    ((∃ e, generate_metadata_json table hemi analysis stat = .error e) ↔
      table.lookup stat = none) ∧
    ∀ p ∈ STATISTICS, (STAT_META.lookup p.1).map (fun e => e.labels.length) = some p.2 := by
  constructor
  · unfold generate_metadata_json
    cases h : table.lookup stat with
    | none => simp
    | some m => simp
  · decide

/-- Counterexample for C8: with a configuration entry whose two labels do
not match the expected five volumes of conT, the emitter succeeds and
silently emits the two mismatched volume labels instead of failing. -/
theorem metadata_no_length_check :
    STATISTICS.lookup "conT" = some 5 ∧
    (generate_metadata_json
      [("conT", { display_name := "T", description := "d", colormap := "c",
                  symmetric := true, suggested_threshold := none,
                  labels := ["a", "b"] })] "lh" "des1" "conT").map
        (fun j => j.volumes.length) = .ok 2 := ⟨rfl, rfl⟩

/-- Witness for C8: a statistic absent from the shipped table is the
KeyError case, and the shipped conT entry has its five labels. -/
theorem metadata_missing_entry_witness :
    (∃ e, generate_metadata_json STAT_META "lh" "des1" "zstat" = .error e) ∧
    (STAT_META.lookup "conT").map (fun e => e.labels.length) = some 5 := by
  refine ⟨(metadata_missing_entry STAT_META "lh" "des1" "zstat").1.mpr (by decide), ?_⟩
  exact (metadata_missing_entry STAT_META "lh" "des1" "zstat").2 ("conT", 5) (by decide)

/-- C10: the emitted hemisphere field is "left" for exactly the identifier
"lh" and "right" for every other string — unrecognized identifiers are
neither validated nor rejected (success does not depend on the hemisphere
argument at all). -/
theorem metadata_hemisphere_mapping (hemi analysis stat : String) :
    (∀ j, generate_metadata_json STAT_META hemi analysis stat = .ok j →
      j.hemisphere = if hemi = "lh" then "left" else "right") ∧
    (generate_metadata_json STAT_META hemi analysis stat).isOk =
      (generate_metadata_json STAT_META "lh" analysis stat).isOk := by
  constructor
  · intro j hj
    unfold generate_metadata_json at hj
    cases h : STAT_META.lookup stat with
    | none =>
      rw [h] at hj
      exact absurd hj (by simp)
    | some m =>
      rw [h] at hj
      obtain rfl := Except.ok.inj hj
      rfl
  · unfold generate_metadata_json
    cases h : STAT_META.lookup stat with
    | none => rfl
    | some m => rfl

/-- Witness for C10: the unrecognized hemisphere identifier "xx" is
accepted and mapped to "right". -/
theorem metadata_hemisphere_mapping_witness :
    (generate_metadata_json STAT_META "xx" "des1" "sigma2").map
      (fun j => j.hemisphere) = .ok "right" := by
  have h := (metadata_hemisphere_mapping "xx" "des1" "sigma2").1
  cases hg : generate_metadata_json STAT_META "xx" "des1" "sigma2" with
  | error e =>
    unfold generate_metadata_json at hg
    rw [show STAT_META.lookup "sigma2" = some
      { display_name := "Residual Variance",
        description := "Residual variance at each vertex",
        colormap := "viridis", symmetric := false,
        suggested_threshold := none, labels := ["Residual Variance"] } from rfl] at hg
    exact absurd hg (by simp)
  | ok j =>
    simp only [Except.map]
    rw [h j hg, if_neg (by decide)]

/-! ### Real-vector helper lemmas -/

theorem normSq_nonneg (a : Vec3) : 0 ≤ normSq a := by
  unfold normSq
  positivity

theorem vnorm_nonneg (a : Vec3) : 0 ≤ vnorm a := Real.sqrt_nonneg _

theorem vnorm_scale (t : ℝ) (a : Vec3) : vnorm (vscale t a) = |t| * vnorm a := by
  have h : normSq (vscale t a) = t ^ 2 * normSq a := by
    simp only [vscale, normSq]
    ring
  unfold vnorm
  rw [h, Real.sqrt_mul (sq_nonneg t), Real.sqrt_sq_eq_abs]

theorem vnorm_scale_inv_self (a : Vec3) (h : 0 < vnorm a) :
    vnorm (vscale (vnorm a)⁻¹ a) = 1 := by
  rw [vnorm_scale, abs_of_nonneg (inv_nonneg.mpr (le_of_lt h)),
    inv_mul_cancel₀ (ne_of_gt h)]

/-! ### C9: totality of the normal computation under the face-index invariant -/

theorem accumFace_isSome (verts : List Vec3) (acc : List Vec3) (f : Nat × Nat × Nat) :
    (accumFace verts acc f).isSome = true ↔
      f.1 < verts.length ∧ f.2.1 < verts.length ∧ f.2.2 < verts.length := by
  have h : (accumFace verts acc f).isSome =
      ((verts[f.1]?).isSome && (verts[f.2.1]?).isSome && (verts[f.2.2]?).isSome) := by
    unfold accumFace
    cases verts[f.1]? <;> cases verts[f.2.1]? <;> cases verts[f.2.2]? <;> rfl
  rw [h]
  simp only [Bool.and_eq_true, Option.isSome_iff_ne_none, ne_eq,
    List.getElem?_eq_none_iff, Nat.not_le, and_assoc]

theorem foldlM_accumFace_isSome (verts : List Vec3) (faces : List (Nat × Nat × Nat)) :
    ∀ acc : List Vec3,
      (List.foldlM (accumFace verts) acc faces).isSome = true ↔
        ∀ f ∈ faces, f.1 < verts.length ∧ f.2.1 < verts.length ∧ f.2.2 < verts.length := by
  induction faces with
  | nil =>
    intro acc
    simp [List.foldlM_nil]
  | cons g gs ih =>
    intro acc
    rw [List.foldlM_cons]
    cases hg : accumFace verts acc g with
    | none =>
      have hng := accumFace_isSome verts acc g
      rw [hg] at hng
      simp only [Option.isSome_none, Bool.false_eq_true, false_iff] at hng
      refine iff_of_false (by simp) (fun hall => hng (hall g (List.mem_cons_self g gs)))
    | some a₂ =>
      have hgood := accumFace_isSome verts acc g
      rw [hg] at hgood
      simp only [Option.isSome_some, true_iff] at hgood
      show (List.foldlM (accumFace verts) a₂ gs).isSome = true ↔ _
      rw [ih a₂]
      constructor
      · intro hgs f hf
        rcases List.mem_cons.mp hf with h | h
        · rw [h]
          exact hgood
        · exact hgs f h
      · intro hall f hf
        exact hall f (List.mem_cons_of_mem _ hf)

/-- C9: compute_vertex_normals indexes the vertex array by raw face
indices with no guard, so it succeeds exactly under the Surface invariant
that every face index lies below the vertex count; any out-of-range index
makes the lookup fail (the IndexError branch), and that branch is
unreachable precisely when the invariant holds. -/
theorem compute_vertex_normals_total_iff (verts : List Vec3)
    (faces : List (Nat × Nat × Nat)) :
    (compute_vertex_normals verts faces).isSome = true ↔
      ∀ f ∈ faces, f.1 < verts.length ∧ f.2.1 < verts.length ∧ f.2.2 < verts.length := by
  unfold compute_vertex_normals
  rw [Option.isSome_map']
  exact foldlM_accumFace_isSome verts faces _

/-- Witness for C9: a one-vertex surface succeeds on the face (0,0,0) and
fails on the out-of-range face (0,1,0). -/
theorem compute_vertex_normals_total_iff_witness :
    (compute_vertex_normals [((0 : ℝ), (0 : ℝ), (0 : ℝ))] [(0, 0, 0)]).isSome = true ∧
    (compute_vertex_normals [((0 : ℝ), (0 : ℝ), (0 : ℝ))] [(0, 1, 0)]).isSome = false := by
  constructor
  · refine (compute_vertex_normals_total_iff _ _).mpr ?_
    intro f hf
    rw [List.mem_singleton.mp hf]
    refine ⟨?_, ?_, ?_⟩ <;> simp
  · have h : ¬ ((compute_vertex_normals [((0 : ℝ), (0 : ℝ), (0 : ℝ))]
        [(0, 1, 0)]).isSome = true) := by
      intro hs
      have hall := (compute_vertex_normals_total_iff _ _).mp hs
      have hbad := (hall (0, 1, 0) (List.mem_singleton_self _)).2.1
      simp at hbad
    exact Bool.not_eq_true _ |>.mp h

/-! ### C5: per-face contribution -/

theorem vnorm001 : vnorm ((0 : ℝ), (0 : ℝ), (1 : ℝ)) = 1 := by
  unfold vnorm
  rw [show normSq ((0 : ℝ), (0 : ℝ), (1 : ℝ)) = 1 by norm_num [normSq]]
  exact Real.sqrt_one

theorem vnorm00m1 : vnorm ((0 : ℝ), (0 : ℝ), (-1 : ℝ)) = 1 := by
  unfold vnorm
  rw [show normSq ((0 : ℝ), (0 : ℝ), (-1 : ℝ)) = 1 by norm_num [normSq]]
  exact Real.sqrt_one

theorem vnorm_zero : vnorm ((0 : ℝ), (0 : ℝ), (0 : ℝ)) = 0 := by
  unfold vnorm
  rw [show normSq ((0 : ℝ), (0 : ℝ), (0 : ℝ)) = 0 by norm_num [normSq]]
  exact Real.sqrt_zero

/-- C5 (amended): for a face whose cross product of edge vectors has
magnitude at most 1e-10, the vector added to each of its three vertex
accumulators is the unnormalized cross product itself — exactly zero only
for exactly degenerate faces — while for a face whose cross-product
magnitude exceeds 1e-10 it is the cross product divided by its magnitude,
a unit vector. -/
theorem faceNormal_cases (v0 v1 v2 : Vec3) :
    (vnorm (vcross (vsub v1 v0) (vsub v2 v0)) ≤ 1e-10 →
      faceNormal v0 v1 v2 = vcross (vsub v1 v0) (vsub v2 v0)) ∧
    (1e-10 < vnorm (vcross (vsub v1 v0) (vsub v2 v0)) →
      faceNormal v0 v1 v2 =
        vscale (vnorm (vcross (vsub v1 v0) (vsub v2 v0)))⁻¹
          (vcross (vsub v1 v0) (vsub v2 v0)) ∧
      vnorm (faceNormal v0 v1 v2) = 1) := by
  constructor
  · intro h
    simp only [faceNormal]
    rw [if_neg (not_lt.mpr h)]
  · intro h
    have hpos : 0 < vnorm (vcross (vsub v1 v0) (vsub v2 v0)) :=
      lt_trans (by norm_num) h
    refine ⟨?_, ?_⟩
    · simp only [faceNormal]
      rw [if_pos h]
    · simp only [faceNormal]
      rw [if_pos h]
      exact vnorm_scale_inv_self _ hpos

/-- Witness for C5: the face at the origin spanned by the two unit axes
has cross product (0, 0, 1) of magnitude 1, and its contribution is a
unit vector. -/
theorem faceNormal_cases_witness :
    vnorm (faceNormal ((0 : ℝ), (0 : ℝ), (0 : ℝ)) ((1 : ℝ), (0 : ℝ), (0 : ℝ))
      ((0 : ℝ), (1 : ℝ), (0 : ℝ))) = 1 := by
  have hc : vcross (vsub ((1 : ℝ), (0 : ℝ), (0 : ℝ)) ((0 : ℝ), (0 : ℝ), (0 : ℝ)))
      (vsub ((0 : ℝ), (1 : ℝ), (0 : ℝ)) ((0 : ℝ), (0 : ℝ), (0 : ℝ))) =
      ((0 : ℝ), (0 : ℝ), (1 : ℝ)) := by
    norm_num [vcross, vsub]
  refine ((faceNormal_cases _ _ _).2 ?_).2
  rw [hc, vnorm001]
  norm_num

/-- Counterexample for C5: the near-degenerate face at the origin with
edges of length 1e-6 along the axes has cross product (0, 0, 1e-12) of
magnitude 1e-12 ≤ 1e-10, yet the vector added to its vertex accumulators
is that nonzero cross product, not the zero vector. -/
theorem faceNormal_degenerate_nonzero :
    vnorm (vcross (vsub ((1e-6 : ℝ), (0 : ℝ), (0 : ℝ)) ((0 : ℝ), (0 : ℝ), (0 : ℝ)))
        (vsub ((0 : ℝ), (1e-6 : ℝ), (0 : ℝ)) ((0 : ℝ), (0 : ℝ), (0 : ℝ)))) ≤ 1e-10 ∧
    faceNormal ((0 : ℝ), (0 : ℝ), (0 : ℝ)) ((1e-6 : ℝ), (0 : ℝ), (0 : ℝ))
      ((0 : ℝ), (1e-6 : ℝ), (0 : ℝ)) ≠ ((0 : ℝ), (0 : ℝ), (0 : ℝ)) := by
  have hc : vcross (vsub ((1e-6 : ℝ), (0 : ℝ), (0 : ℝ)) ((0 : ℝ), (0 : ℝ), (0 : ℝ)))
      (vsub ((0 : ℝ), (1e-6 : ℝ), (0 : ℝ)) ((0 : ℝ), (0 : ℝ), (0 : ℝ))) =
      ((0 : ℝ), (0 : ℝ), (1e-12 : ℝ)) := by
    norm_num [vcross, vsub]
  have hn : vnorm ((0 : ℝ), (0 : ℝ), (1e-12 : ℝ)) = 1e-12 := by
    unfold vnorm
    rw [show normSq ((0 : ℝ), (0 : ℝ), (1e-12 : ℝ)) = (1e-12 : ℝ) ^ 2 by
      norm_num [normSq]]
    exact Real.sqrt_sq (by norm_num)
  constructor
  · rw [hc, hn]
    norm_num
  · simp only [faceNormal]
    rw [hc, hn, if_neg (by norm_num)]
    simp only [ne_eq, Prod.mk.injEq, not_and]
    intro _ _
    norm_num

/-! ### C6: final per-vertex normalization -/

theorem accumFace_length (verts acc : List Vec3) (f : Nat × Nat × Nat)
    (a₂ : List Vec3) (h : accumFace verts acc f = some a₂) : a₂.length = acc.length := by
  unfold accumFace at h
  revert h
  cases verts[f.1]? <;> cases verts[f.2.1]? <;> cases verts[f.2.2]? <;> intro h <;>
    try exact Option.noConfusion h
  obtain rfl := Option.some.inj h
  simp [List.length_set]

theorem foldlM_accumFace_length (verts : List Vec3) (faces : List (Nat × Nat × Nat)) :
    ∀ acc res, List.foldlM (accumFace verts) acc faces = some res →
      res.length = acc.length := by
  induction faces with
  | nil =>
    intro acc res h
    simp only [List.foldlM_nil] at h
    obtain rfl := Option.some.inj h
    rfl
  | cons g gs ih =>
    intro acc res h
    rw [List.foldlM_cons] at h
    cases hg : accumFace verts acc g with
    | none =>
      rw [hg] at h
      exact Option.noConfusion h
    | some a₂ =>
      rw [hg] at h
      exact (ih a₂ res h).trans (accumFace_length verts acc g a₂ hg)

/-- C6 (amended): compute_vertex_normals divides each accumulated vector
by its magnitude, replacing a magnitude below 1e-10 by the divisor 1.0 so
the result is the (near-)zero vector instead of a division failure; every
vertex whose accumulated magnitude is at least 1e-10 — cancellation of
opposing non-degenerate faces can drop a referenced vertex below that —
gets a normal of magnitude exactly 1, and the output has exactly one
normal per vertex, in vertex order. -/
theorem vertex_normalization (verts : List Vec3) (faces : List (Nat × Nat × Nat)) :
    (∀ a : Vec3, normalizeVec a =
      vscale (if vnorm a < 1e-10 then 1 else vnorm a)⁻¹ a) ∧
    (∀ a : Vec3, 1e-10 ≤ vnorm a → vnorm (normalizeVec a) = 1) ∧
    (∀ ns, compute_vertex_normals verts faces = some ns → ns.length = verts.length) := by
  refine ⟨fun a => rfl, ?_, ?_⟩
  · intro a ha
    have hpos : 0 < vnorm a := lt_of_lt_of_le (by norm_num) ha
    unfold normalizeVec
    rw [if_neg (not_lt.mpr ha)]
    exact vnorm_scale_inv_self a hpos
  · intro ns hns
    unfold compute_vertex_normals at hns
    cases hacc : List.foldlM (accumFace verts)
        (List.replicate verts.length vzero) faces with
    | none =>
      rw [hacc] at hns
      exact Option.noConfusion hns
    | some acc =>
      rw [hacc] at hns
      simp only [Option.map_some'] at hns
      obtain rfl := Option.some.inj hns
      rw [List.length_map]
      exact (foldlM_accumFace_length verts faces _ _ hacc).trans
        (List.length_replicate _ _)

theorem faceNormal_A :
    faceNormal ((0 : ℝ), (0 : ℝ), (0 : ℝ)) ((1 : ℝ), (0 : ℝ), (0 : ℝ))
      ((0 : ℝ), (1 : ℝ), (0 : ℝ)) = ((0 : ℝ), (0 : ℝ), (1 : ℝ)) := by
  have hc : vcross (vsub ((1 : ℝ), (0 : ℝ), (0 : ℝ)) ((0 : ℝ), (0 : ℝ), (0 : ℝ)))
      (vsub ((0 : ℝ), (1 : ℝ), (0 : ℝ)) ((0 : ℝ), (0 : ℝ), (0 : ℝ))) =
      ((0 : ℝ), (0 : ℝ), (1 : ℝ)) := by
    norm_num [vcross, vsub]
  simp only [faceNormal]
  rw [hc, vnorm001, if_pos (by norm_num : (1e-10 : ℝ) < 1)]
  norm_num [vscale]

theorem faceNormal_B :
    faceNormal ((0 : ℝ), (0 : ℝ), (0 : ℝ)) ((0 : ℝ), (1 : ℝ), (0 : ℝ))
      ((1 : ℝ), (0 : ℝ), (0 : ℝ)) = ((0 : ℝ), (0 : ℝ), (-1 : ℝ)) := by
  have hc : vcross (vsub ((0 : ℝ), (1 : ℝ), (0 : ℝ)) ((0 : ℝ), (0 : ℝ), (0 : ℝ)))
      (vsub ((1 : ℝ), (0 : ℝ), (0 : ℝ)) ((0 : ℝ), (0 : ℝ), (0 : ℝ))) =
      ((0 : ℝ), (0 : ℝ), (-1 : ℝ)) := by
    norm_num [vcross, vsub]
  simp only [faceNormal]
  rw [hc, vnorm00m1, if_pos (by norm_num : (1e-10 : ℝ) < 1)]
  norm_num [vscale]

theorem normalizeVec_zero :
    normalizeVec ((0 : ℝ), (0 : ℝ), (0 : ℝ)) = ((0 : ℝ), (0 : ℝ), (0 : ℝ)) := by
  unfold normalizeVec
  rw [vnorm_zero, if_pos (by norm_num : (0 : ℝ) < 1e-10)]
  norm_num [vscale]

/-- Counterexample for C6: on the triangle (0,0,0), (1,0,0), (0,1,0) with
the two opposite-winding faces (0,1,2) and (0,2,1), the two unit face
normals (0,0,1) and (0,0,-1) cancel in every accumulator, so vertex 0 —
although referenced by the non-degenerate face (0,1,2) whose cross
product has magnitude 1 > 1e-10 — receives the zero normal, whose
magnitude is not 1. -/
theorem vertex_normals_cancellation :
    compute_vertex_normals
        [((0 : ℝ), (0 : ℝ), (0 : ℝ)), ((1 : ℝ), (0 : ℝ), (0 : ℝ)),
          ((0 : ℝ), (1 : ℝ), (0 : ℝ))]
        [(0, 1, 2), (0, 2, 1)] =
      some [((0 : ℝ), (0 : ℝ), (0 : ℝ)), ((0 : ℝ), (0 : ℝ), (0 : ℝ)),
        ((0 : ℝ), (0 : ℝ), (0 : ℝ))] ∧
    1e-10 < vnorm (vcross
      (vsub ((1 : ℝ), (0 : ℝ), (0 : ℝ)) ((0 : ℝ), (0 : ℝ), (0 : ℝ)))
      (vsub ((0 : ℝ), (1 : ℝ), (0 : ℝ)) ((0 : ℝ), (0 : ℝ), (0 : ℝ)))) ∧
    vnorm ((0 : ℝ), (0 : ℝ), (0 : ℝ)) ≠ 1 := by
  refine ⟨?_, ?_, ?_⟩
  · have s1 : accumFace
        [((0 : ℝ), (0 : ℝ), (0 : ℝ)), ((1 : ℝ), (0 : ℝ), (0 : ℝ)),
          ((0 : ℝ), (1 : ℝ), (0 : ℝ))]
        [vzero, vzero, vzero] (0, 1, 2) =
        some [vadd vzero (faceNormal ((0 : ℝ), (0 : ℝ), (0 : ℝ))
            ((1 : ℝ), (0 : ℝ), (0 : ℝ)) ((0 : ℝ), (1 : ℝ), (0 : ℝ))),
          vadd vzero (faceNormal ((0 : ℝ), (0 : ℝ), (0 : ℝ))
            ((1 : ℝ), (0 : ℝ), (0 : ℝ)) ((0 : ℝ), (1 : ℝ), (0 : ℝ))),
          vadd vzero (faceNormal ((0 : ℝ), (0 : ℝ), (0 : ℝ))
            ((1 : ℝ), (0 : ℝ), (0 : ℝ)) ((0 : ℝ), (1 : ℝ), (0 : ℝ)))] := rfl
    rw [faceNormal_A, show vadd vzero ((0 : ℝ), (0 : ℝ), (1 : ℝ)) =
      ((0 : ℝ), (0 : ℝ), (1 : ℝ)) by norm_num [vadd, vzero]] at s1
    have s2 : accumFace
        [((0 : ℝ), (0 : ℝ), (0 : ℝ)), ((1 : ℝ), (0 : ℝ), (0 : ℝ)),
          ((0 : ℝ), (1 : ℝ), (0 : ℝ))]
        [((0 : ℝ), (0 : ℝ), (1 : ℝ)), ((0 : ℝ), (0 : ℝ), (1 : ℝ)),
          ((0 : ℝ), (0 : ℝ), (1 : ℝ))] (0, 2, 1) =
        some [vadd ((0 : ℝ), (0 : ℝ), (1 : ℝ)) (faceNormal ((0 : ℝ), (0 : ℝ), (0 : ℝ))
            ((0 : ℝ), (1 : ℝ), (0 : ℝ)) ((1 : ℝ), (0 : ℝ), (0 : ℝ))),
          vadd ((0 : ℝ), (0 : ℝ), (1 : ℝ)) (faceNormal ((0 : ℝ), (0 : ℝ), (0 : ℝ))
            ((0 : ℝ), (1 : ℝ), (0 : ℝ)) ((1 : ℝ), (0 : ℝ), (0 : ℝ))),
          vadd ((0 : ℝ), (0 : ℝ), (1 : ℝ)) (faceNormal ((0 : ℝ), (0 : ℝ), (0 : ℝ))
            ((0 : ℝ), (1 : ℝ), (0 : ℝ)) ((1 : ℝ), (0 : ℝ), (0 : ℝ)))] := rfl
    rw [faceNormal_B, show vadd ((0 : ℝ), (0 : ℝ), (1 : ℝ)) ((0 : ℝ), (0 : ℝ), (-1 : ℝ)) =
      ((0 : ℝ), (0 : ℝ), (0 : ℝ)) by norm_num [vadd]] at s2
    unfold compute_vertex_normals
    rw [show List.replicate ([((0 : ℝ), (0 : ℝ), (0 : ℝ)), ((1 : ℝ), (0 : ℝ), (0 : ℝ)),
        ((0 : ℝ), (1 : ℝ), (0 : ℝ))] : List Vec3).length vzero =
      [vzero, vzero, vzero] from rfl]
    rw [List.foldlM_cons, s1]
    simp only [Option.bind_eq_bind, Option.some_bind]
    rw [List.foldlM_cons, s2]
    simp only [Option.bind_eq_bind, Option.some_bind, List.foldlM_nil, Option.pure_def,
      Option.map_some', List.map_cons, List.map_nil, normalizeVec_zero]
  · rw [show vcross
      (vsub ((1 : ℝ), (0 : ℝ), (0 : ℝ)) ((0 : ℝ), (0 : ℝ), (0 : ℝ)))
      (vsub ((0 : ℝ), (1 : ℝ), (0 : ℝ)) ((0 : ℝ), (0 : ℝ), (0 : ℝ))) =
      ((0 : ℝ), (0 : ℝ), (1 : ℝ)) by norm_num [vcross, vsub], vnorm001]
    norm_num
  · rw [vnorm_zero]
    norm_num

/-- Witness for C6: an accumulated vector of magnitude 1 normalizes to a
unit normal. -/
theorem vertex_normalization_witness :
    vnorm (normalizeVec ((0 : ℝ), (0 : ℝ), (1 : ℝ))) = 1 := by
  refine (vertex_normalization [] []).2.1 _ ?_
  rw [vnorm001]
  norm_num

end BLMMConvert
